import Mathlib

/-!
Shallow embedding of slurm.py (wryhode/slurmcore).

Audio buffers are lists of rationals (idealizing float samples), sample
rates and settings are rationals.  The two external resampling backends
(librosa.resample and scipy.signal.resample) are not code of this
repository; the embedding is parameterized over them by a `Resamplers`
record, and theorems assume of them only their documented contracts
(for scipy.signal.resample: exactly the requested number of samples).
-/

attribute [local semireducible] Rat.add Rat.mul Rat.inv Rat.sub Rat.ofScientific

/-- Mirrors the EchoSettings dataclass of slurm.py, defaults included. -/
structure EchoSettings where
  mix : ℚ := 1/2
  multiplier : ℚ := 1
  slice_mix : ℚ := 13/20
  internal_resample_multiplier : ℚ := 11/10
  internal_resample_drywet : ℚ := 17/20
  internal_flip : Bool := true
  internal_flip_drywet : ℚ := 2/5
  flipflop : Bool := false
deriving DecidableEq

/-- Mirrors the SliceSettings dataclass of slurm.py, defaults included. -/
structure SliceSettings where
  beat_offset : ℚ := 0
  beat_size : ℚ := 1/2
  mix : ℚ := 3/20
  reverse : Bool := false
deriving DecidableEq

/-- The external resampling backends used by slurm.py: librosa.resample
(arguments: data, orig_sr, target_sr) and scipy.signal.resample
(arguments: data, number of output samples).  They are third-party
libraries, so the embedding treats them as parameters. -/
structure Resamplers where
  librosa_resample : List ℚ → ℚ → ℚ → List ℚ
  scipy_resample : List ℚ → ℕ → List ℚ

/-- numpy elementwise multiplication of an array by a scalar on the right. -/
def vmuls (l : List ℚ) (c : ℚ) : List ℚ := l.map (fun x => x * c)

/-- numpy elementwise addition of two arrays of equal length. -/
def addList (a b : List ℚ) : List ℚ := List.zipWith (fun x y => x + y) a b

/-- Python int() applied to a rational: truncation toward zero
(floor for nonnegative arguments, ceiling for negative ones). -/
def pyInt (q : ℚ) : ℤ := if 0 ≤ q then q.floor else q.ceil

/-- Python slice-index normalization: negative indices count from the end,
then the index is clamped into [0, n]. -/
def pyIndexClamp (n : ℕ) (i : ℤ) : ℕ :=
  let j : ℤ := if i < 0 then i + n else i
  if j < 0 then 0 else min j.toNat n

/-- Python list slicing l[a:b] (with int indices, step 1). -/
def pySlice (l : List ℚ) (a b : ℤ) : List ℚ :=
  (l.take (pyIndexClamp l.length b)).drop (pyIndexClamp l.length a)

/-- get_fractional_slice of slurm.py: cut out the fractional window
[int(len*start), int(len*start) + int(len*length)) of in_slice. -/
def get_fractional_slice (in_slice : List ℚ) (start length : ℚ) : List ℚ :=
  let slice_start := pyInt (in_slice.length * start)
  let slice_end := slice_start + pyInt (in_slice.length * length)
  pySlice in_slice slice_start slice_end

/-- resample_multiplier of slurm.py: identity at multiplier 1, otherwise
delegate to librosa.resample with target_sr = sample_rate * multiplier. -/
def resample_multiplier (R : Resamplers) (data : List ℚ) (sample_rate mult : ℚ) : List ℚ :=
  if mult = 1 then data else R.librosa_resample data sample_rate (sample_rate * mult)

/-- resample_divider of slurm.py: identity at divider 1, otherwise
delegate to librosa.resample with target_sr = sample_rate / divider. -/
def resample_divider (R : Resamplers) (data : List ℚ) (sample_rate divider : ℚ) : List ℚ :=
  if divider = 1 then data else R.librosa_resample data sample_rate (sample_rate / divider)

/-- resample_n_samples of slurm.py: a bare delegation to
scipy.signal.resample(data, target_size), with no special cases. -/
def resample_n_samples (R : Resamplers) (data : List ℚ) (target_size : ℕ) : List ℚ :=
  R.scipy_resample data target_size

/-- numpy np.resize for one-dimensional arrays: an empty array resizes to
zeros, otherwise the data is cyclically repeated and truncated to the
requested length.  This is NOT interpolation. -/
def np_resize (l : List ℚ) (n : ℕ) : List ℚ :=
  if l.isEmpty then List.replicate n 0
  else ((List.replicate (n / l.length + 1) l).flatten).take n

/-- Section sizes used by numpy np.array_split(data, n): the first
(total mod n) sections get (total / n + 1) elements, the rest get
(total / n) elements. -/
def splitSizes (total n : ℕ) : List ℕ :=
  List.replicate (total % n) (total / n + 1) ++ List.replicate (n - total % n) (total / n)

/-- Successive chunks of the given sizes cut from the front of a list. -/
def takeChunks : List ℚ → List ℕ → List (List ℚ)
  | _, [] => []
  | data, s :: rest => data.take s :: takeChunks (data.drop s) rest

/-- numpy np.array_split(data, n) for a one-dimensional array.  numpy
raises for n = 0; the claims below always assume n of at least 1. -/
def array_split (data : List ℚ) (n : ℕ) : List (List ℚ) :=
  takeChunks data (splitSizes data.length n)

/-- Number of beats computed by slurm: floor(data_size / floor(60/BPM * sr)),
as int (numpy floors; the value is nonnegative in every compliant run). -/
def beat_count (data : List ℚ) (sample_rate bpm : ℚ) : ℕ :=
  (((data.length : ℚ) / ((((60 / bpm) * sample_rate).floor : ℤ) : ℚ)).floor).toNat

/-- The segment list computed by slurm: np.array_split(data, beats). -/
def slurm_slices (data : List ℚ) (sample_rate bpm : ℚ) : List (List ℚ) :=
  array_split data (beat_count data sample_rate bpm)

/-- The slice_data of iteration i of the slurm loop: the fractional window
of the segment, rate-resampled in divider mode by v = timing(i / N). -/
def slice_data_of (R : Resamplers) (sample_rate : ℚ) (ss : SliceSettings)
    (timing : ℚ → ℚ) (N i : ℕ) (seg : List ℚ) : List ℚ :=
  resample_divider R (get_fractional_slice seg ss.beat_offset ss.beat_size)
    sample_rate (timing ((i : ℚ) / (N : ℚ)))

/-- The speed-morph of the echo buffer (lines 102-104 of slurm.py): when
internal_resample_multiplier is not 1, rate-resample the echo buffer by
the multiplier, bring it back to n samples with np.resize, and crossfade
with the unmorphed buffer by internal_resample_drywet. -/
def echo_speed_morph (R : Resamplers) (sample_rate : ℚ) (es : EchoSettings)
    (n : ℕ) (echo : List ℚ) : List ℚ :=
  if es.internal_resample_multiplier ≠ 1 then
    let echo_resamp := np_resize
      (resample_multiplier R echo sample_rate es.internal_resample_multiplier) n
    addList (vmuls echo (1 - es.internal_resample_drywet))
      (vmuls echo_resamp es.internal_resample_drywet)
  else echo

/-- Modelled from the spec (section 4.4 step 4), for comparison with the
code's echo_speed_morph: the spec says the rate-resampled echo is brought
back to n samples by fixed-length resampling (reinterpolation), i.e. by
resample_n_samples, before the crossfade. -/
def echo_speed_morph_spec (R : Resamplers) (sample_rate : ℚ) (es : EchoSettings)
    (n : ℕ) (echo : List ℚ) : List ℚ :=
  if es.internal_resample_multiplier ≠ 1 then
    let morphed := resample_n_samples R
      (resample_multiplier R echo sample_rate es.internal_resample_multiplier) n
    addList (vmuls echo (1 - es.internal_resample_drywet))
      (vmuls morphed es.internal_resample_drywet)
  else echo

/-- The feedback input to the echo buffer (lines 106-109 of slurm.py):
a flip-crossfade of slice_data when internal_flip is set, else slice_data. -/
def mk_to_echo (es : EchoSettings) (slice_data : List ℚ) : List ℚ :=
  if es.internal_flip then
    addList (vmuls slice_data (1 - es.internal_flip_drywet))
      (vmuls slice_data.reverse es.internal_flip_drywet)
  else slice_data

/-- One iteration of the per-segment loop of slurm (lines 81-114 of
slurm.py).  Input: the segment and the incoming echo buffer; output: the
output slice written to slices_cut[i] and the outgoing echo buffer. -/
def slurmStep (R : Resamplers) (sample_rate : ℚ) (ss : SliceSettings) (es : EchoSettings)
    (timing : ℚ → ℚ) (N i : ℕ) (seg : List ℚ) (echo_buf : List ℚ) : List ℚ × List ℚ :=
  let slice_data := slice_data_of R sample_rate ss timing N i seg
  let cut0 := vmuls slice_data ss.mix
  let cut1 := if ss.reverse then cut0.reverse else cut0
  let echo1 := resample_n_samples R echo_buf slice_data.length
  let cut2 := addList cut1 (vmuls echo1 es.mix)
  let echo2 := vmuls echo1 es.multiplier
  let echo3 := echo_speed_morph R sample_rate es slice_data.length echo2
  let echo4 := addList echo3 (vmuls (mk_to_echo es slice_data) es.slice_mix)
  let echo5 := if es.flipflop then echo4.reverse else echo4
  (cut2, echo5)

/-- Modelled from the spec (section 4.5 step 2 with section 4.4 step 5),
for comparison with the code's slurmStep: the spec folds
SliceSettings.mix and reverse into slice_data itself, so the feedback
input to the echo buffer is built from the mixed and possibly reversed
slice.  Everything else is as in slurmStep. -/
def slurmStep_claimed (R : Resamplers) (sample_rate : ℚ) (ss : SliceSettings)
    (es : EchoSettings) (timing : ℚ → ℚ) (N i : ℕ) (seg : List ℚ)
    (echo_buf : List ℚ) : List ℚ × List ℚ :=
  let slice_data0 := slice_data_of R sample_rate ss timing N i seg
  let cut0 := vmuls slice_data0 ss.mix
  let slice_data := if ss.reverse then cut0.reverse else cut0
  let echo1 := resample_n_samples R echo_buf slice_data.length
  let cut2 := addList slice_data (vmuls echo1 es.mix)
  let echo2 := vmuls echo1 es.multiplier
  let echo3 := echo_speed_morph R sample_rate es slice_data.length echo2
  let echo4 := addList echo3 (vmuls (mk_to_echo es slice_data) es.slice_mix)
  let echo5 := if es.flipflop then echo4.reverse else echo4
  (cut2, echo5)

/-- The per-segment loop of slurm: threads the echo buffer through the
segments in order, collecting the output slices. -/
def slurmLoop (R : Resamplers) (sample_rate : ℚ) (ss : SliceSettings) (es : EchoSettings)
    (timing : ℚ → ℚ) (N : ℕ) : List (List ℚ) → ℕ → List ℚ → List (List ℚ) × List ℚ
  | [], _, echo => ([], echo)
  | seg :: rest, i, echo =>
    let r := slurmStep R sample_rate ss es timing N i seg echo
    let rr := slurmLoop R sample_rate ss es timing N rest (i + 1) r.2
    (r.1 :: rr.1, rr.2)

/-- The echo buffer after each iteration of the per-segment loop, in order. -/
def echoTrace (R : Resamplers) (sample_rate : ℚ) (ss : SliceSettings) (es : EchoSettings)
    (timing : ℚ → ℚ) (N : ℕ) : List (List ℚ) → ℕ → List ℚ → List (List ℚ)
  | [], _, _ => []
  | seg :: rest, i, echo =>
    let e := (slurmStep R sample_rate ss es timing N i seg echo).2
    e :: echoTrace R sample_rate ss es timing N rest (i + 1) e

/-- The slurm function of slurm.py: slice the buffer into beats, run the
per-segment loop starting from a zero echo buffer sized like the first
fractional window, and concatenate the output slices. -/
def slurm (R : Resamplers) (data : List ℚ) (sample_rate bpm : ℚ)
    (ss : SliceSettings) (es : EchoSettings) (timing : ℚ → ℚ) : List ℚ :=
  let slices := slurm_slices data sample_rate bpm
  let slurmed_slice_size :=
    (get_fractional_slice (slices.headD []) ss.beat_offset ss.beat_size).length
  let echo0 := List.replicate slurmed_slice_size (0 : ℚ)
  (slurmLoop R sample_rate ss es timing slices.length slices 0 echo0).1.flatten

/-- The sequence of echo-buffer states produced by a slurm run, one entry
per loop iteration, observed with the same inputs slurm uses. -/
def slurm_echo_trace (R : Resamplers) (data : List ℚ) (sample_rate bpm : ℚ)
    (ss : SliceSettings) (es : EchoSettings) (timing : ℚ → ℚ) : List (List ℚ) :=
  let slices := slurm_slices data sample_rate bpm
  let slurmed_slice_size :=
    (get_fractional_slice (slices.headD []) ss.beat_offset ss.beat_size).length
  let echo0 := List.replicate slurmed_slice_size (0 : ℚ)
  echoTrace R sample_rate ss es timing slices.length slices 0 echo0

/-- Energy of a buffer: sum of squares of its samples. -/
def energy (l : List ℚ) : ℚ := (l.map (fun x => x * x)).sum

/-- Documented contract of scipy.signal.resample: the output has exactly
the requested number of samples. -/
def scipy_length_ok (R : Resamplers) : Prop :=
  ∀ d n, (R.scipy_resample d n).length = n

/-- A backend maps all-zero inputs to all-zero outputs (true of the real
librosa.resample and scipy.signal.resample, which are linear). -/
def zero_preserving (R : Resamplers) : Prop :=
  (∀ d sr tr, (∀ x ∈ d, x = 0) → ∀ x ∈ R.librosa_resample d sr tr, x = 0) ∧
  (∀ d n, (∀ x ∈ d, x = 0) → ∀ x ∈ R.scipy_resample d n, x = 0)

/-- The slice settings of the end-to-end scenario of the spec:
beat_offset 0, beat_size 1, mix 1, no reverse. -/
def ss6 : SliceSettings := ⟨0, 1, 1, false⟩

/-- The echo settings of the end-to-end scenario of the spec: mix 0,
multiplier 0, slice_mix 0, internal_resample_multiplier 1, no flips
(drywet fields at their dataclass defaults; they are unused here). -/
def es6 : EchoSettings := ⟨0, 0, 0, 1, 17/20, false, 2/5, false⟩

/-- A buffer is silent: every sample is zero. -/
def all_zero (l : List ℚ) : Prop := ∀ x ∈ l, x = 0

/-- A simple concrete backend used to instantiate theorems: librosa as the
identity, scipy as truncate-or-zero-pad to the requested length. -/
def extId : Resamplers :=
  ⟨fun d _ _ => d, fun d n => d.take n ++ List.replicate (n - d.length) 0⟩

/-- A backend whose fixed-length resampler returns an all-zero buffer of
the requested length (so it satisfies the length contract of
scipy.signal.resample but is not the identity at the input length). -/
def scipyZero : Resamplers :=
  ⟨fun d _ _ => d, fun _ n => List.replicate n 0⟩

/-- A backend whose fixed-length resampler satisfies the length contract
but increases energy: every output sample is the input's sum plus one. -/
def R_pump : Resamplers :=
  ⟨fun d _ _ => d, fun d n => List.replicate n (d.sum + 1)⟩

example : pyInt (5 * (1/2 : ℚ)) = 2 := by decide
example : get_fractional_slice [1, 2, 3, 4, 5] (1/2) (2/5) = [3, 4] := by decide
example : array_split [1, 2, 3, 4, 5] 2 = [[1, 2, 3], [4, 5]] := by decide
example : np_resize [1, 2] 5 = [1, 2, 1, 2, 1] := by decide
example : beat_count [0, 0, 0, 0, 0] 1 30 = 2 := by decide

/-! Helper lemmas. -/

theorem ratFloor_eq_floor (q : ℚ) : q.floor = ⌊q⌋ :=
  (Rat.floor_def' q).trans Rat.floor_def.symm

theorem pyInt_of_nonneg {q : ℚ} (h : 0 ≤ q) : pyInt q = ⌊q⌋ := by
  rw [pyInt, if_pos h, ratFloor_eq_floor]

theorem pyIndexClamp_of_nonneg (n : ℕ) {i : ℤ} (h : 0 ≤ i) :
    pyIndexClamp n i = min i.toNat n := by
  simp [pyIndexClamp, h.not_lt]

theorem take_min_drop_min (l : List ℚ) (x y : ℕ) :
    (l.take (min (x + y) l.length)).drop (min x l.length) = (l.drop x).take y := by
  have h1 : l.take (min (x + y) l.length) = l.take (x + y) := by
    rcases le_total (x + y) l.length with h | h
    · rw [min_eq_left h]
    · rw [min_eq_right h, List.take_length, List.take_of_length_le h]
  rw [h1]
  rcases le_total x l.length with h | h
  · rw [min_eq_left h, List.drop_take, Nat.add_sub_cancel_left]
  · rw [min_eq_right h]
    have h2 : (List.take (x + y) l).length ≤ l.length := by
      rw [List.length_take]; exact min_le_right _ _
    rw [List.drop_eq_nil_of_le h2, List.drop_eq_nil_of_le h, List.take_nil]

theorem pySlice_of_nonneg (l : List ℚ) {a b : ℤ} (ha : 0 ≤ a) (hb : 0 ≤ b) :
    pySlice l a (a + b) = (l.drop a.toNat).take b.toNat := by
  rw [pySlice, pyIndexClamp_of_nonneg _ (add_nonneg ha hb), pyIndexClamp_of_nonneg _ ha,
    Int.toNat_add ha hb, take_min_drop_min]

/-! Claims C8, C7, C10, C4. -/

/-- Claim C8: rate resampling with factor 1, in both multiplier and
divider mode, returns the input buffer exactly unchanged (slurm.py guards
both wrappers with an equality test against 1 before calling librosa). -/
theorem c8_rate_resample_factor_one_identity (R : Resamplers) (data : List ℚ) (sr : ℚ) :
    resample_multiplier R data sr 1 = data ∧ resample_divider R data sr 1 = data := by
  constructor <;> simp [resample_multiplier, resample_divider]

/-- Claim C7 counterexample: resample_n_samples has no identity shortcut,
it delegates wholesale to the external scipy.signal.resample, so a backend
that satisfies the documented length contract can still fail the claimed
bit-for-bit identity at the input length. -/
theorem c7_counterexample :
    scipy_length_ok scipyZero ∧ resample_n_samples scipyZero [1] 1 ≠ [1] := by
  refine ⟨fun d n => ?_, by decide⟩
  simp [scipyZero]

/-- Claim C7 (amended): resample_n_samples(x, len(x)) returns x exactly
whenever the external fixed-length resampler is the identity at the input
length; the repository code adds no identity guard of its own (unlike the
rate resamplers, which are guarded at factor 1). -/
theorem c7_fixed_length_resample_identity (R : Resamplers)
    (hid : ∀ d : List ℚ, R.scipy_resample d d.length = d) (x : List ℚ) :
    resample_n_samples R x x.length = x :=
  hid x

theorem extId_scipy_id (d : List ℚ) : extId.scipy_resample d d.length = d := by
  simp [extId]

/-- Witness for claim C7's amended theorem at the truncate-or-pad backend. -/
theorem c7_witness : resample_n_samples extId [1, 2] 2 = [1, 2] :=
  c7_fixed_length_resample_identity extId extId_scipy_id [1, 2]

/-- Claim C10: for nonnegative fractional offset and length, the
fractional window is the half-open range
[floor(len*start), floor(len*start) + floor(len*length)) clamped to the
segment (Python slicing truncates silently, possibly to empty). -/
theorem c10_fractional_slice_clamps (in_slice : List ℚ) (start len : ℚ)
    (hs : 0 ≤ start) (hl : 0 ≤ len) :
    get_fractional_slice in_slice start len =
      (in_slice.drop (⌊(in_slice.length : ℚ) * start⌋).toNat).take
        (⌊(in_slice.length : ℚ) * len⌋).toNat := by
  have hs' : (0 : ℚ) ≤ (in_slice.length : ℚ) * start :=
    mul_nonneg (Nat.cast_nonneg _) hs
  have hl' : (0 : ℚ) ≤ (in_slice.length : ℚ) * len :=
    mul_nonneg (Nat.cast_nonneg _) hl
  rw [get_fractional_slice, pyInt_of_nonneg hs', pyInt_of_nonneg hl']
  exact pySlice_of_nonneg in_slice (Int.le_floor.2 (by simpa using hs'))
    (Int.le_floor.2 (by simpa using hl'))

/-- Witness for claim C10: a window past the segment end is truncated. -/
theorem c10_witness :
    (0 : ℚ) ≤ 1/2 ∧ (0 : ℚ) ≤ 3/4 ∧
      get_fractional_slice [1, 2, 3, 4, 5] (1/2) (3/4) =
        (([1, 2, 3, 4, 5] : List ℚ).drop (⌊((5 : ℚ)) * (1/2)⌋).toNat).take
          (⌊((5 : ℚ)) * (3/4)⌋).toNat :=
  ⟨by decide, by decide, by
    have h := c10_fractional_slice_clamps [1, 2, 3, 4, 5] (1/2) (3/4)
      (by decide) (by decide)
    simpa using h⟩

/-! Partition lemmas for np.array_split. -/

theorem sum_splitSizes (t : ℕ) {n : ℕ} (hn : 1 ≤ n) : (splitSizes t n).sum = t := by
  have hmod := Nat.div_add_mod t n
  have hlt : t % n < n := Nat.mod_lt t hn
  have hle : t % n * (t / n) ≤ n * (t / n) := Nat.mul_le_mul_right _ (Nat.le_of_lt hlt)
  simp only [splitSizes, List.sum_append, List.sum_replicate, smul_eq_mul]
  have h1 : t % n * (t / n + 1) = t % n * (t / n) + t % n := by ring
  have h2 : (n - t % n) * (t / n) = n * (t / n) - t % n * (t / n) := Nat.sub_mul _ _ _
  omega

theorem length_splitSizes (t : ℕ) {n : ℕ} (hn : 1 ≤ n) : (splitSizes t n).length = n := by
  have hlt : t % n < n := Nat.mod_lt t hn
  simp only [splitSizes, List.length_append, List.length_replicate]
  omega

theorem flatten_takeChunks (l : List ℚ) (sizes : List ℕ) :
    (takeChunks l sizes).flatten = l.take sizes.sum := by
  induction sizes generalizing l with
  | nil => simp [takeChunks]
  | cons s rest ih =>
    simp only [takeChunks, List.flatten_cons, ih, List.sum_cons, List.take_add]

theorem length_takeChunks (l : List ℚ) (sizes : List ℕ) :
    (takeChunks l sizes).length = sizes.length := by
  induction sizes generalizing l <;> simp [takeChunks, *]

theorem map_length_takeChunks (l : List ℚ) (sizes : List ℕ) (h : sizes.sum ≤ l.length) :
    (takeChunks l sizes).map List.length = sizes := by
  induction sizes generalizing l with
  | nil => simp [takeChunks]
  | cons s rest ih =>
    simp only [List.sum_cons] at h
    simp only [takeChunks, List.map_cons]
    have h1 : (List.take s l).length = s := by rw [List.length_take]; omega
    rw [h1, ih _ (by rw [List.length_drop]; omega)]

theorem getD_replicate {v k i : ℕ} (h : i < k) : (List.replicate k v).getD i 0 = v := by
  induction k generalizing i with
  | zero => omega
  | succ k ih =>
    cases i with
    | zero => rfl
    | succ i => simpa [List.replicate_succ] using ih (by omega)

theorem getD_splitSizes (t : ℕ) {n : ℕ} (i : ℕ) (hi : i < n) :
    (splitSizes t n).getD i 0 = if i < t % n then t / n + 1 else t / n := by
  by_cases h : i < t % n
  · rw [if_pos h, splitSizes, List.getD_append _ _ _ _ (by simpa using h)]
    exact getD_replicate h
  · rw [if_neg h, splitSizes,
      List.getD_append_right _ _ _ _ (by simpa using Nat.le_of_not_lt h)]
    have hlt : i - (List.replicate (t % n) (t / n + 1)).length < n - t % n := by
      simp only [List.length_replicate]; omega
    simpa using getD_replicate (by simpa using hlt)

theorem flatten_array_split (data : List ℚ) {n : ℕ} (hn : 1 ≤ n) :
    (array_split data n).flatten = data := by
  rw [array_split, flatten_takeChunks, sum_splitSizes _ hn, List.take_length]

theorem length_array_split (data : List ℚ) {n : ℕ} (hn : 1 ≤ n) :
    (array_split data n).length = n := by
  rw [array_split, length_takeChunks, length_splitSizes _ hn]

/-- Claim C3: a slurm run with at least one computed beat partitions the
buffer into exactly N contiguous segments in temporal order: concatenating
them reproduces the buffer sample for sample, and segment i has length
L / N + 1 for i < L mod N and L / N otherwise (extras go to the earliest
segments). -/
theorem c3_segment_partition (data : List ℚ) (sr bpm : ℚ)
    (hN : 1 ≤ beat_count data sr bpm) :
    (slurm_slices data sr bpm).length = beat_count data sr bpm ∧
    (slurm_slices data sr bpm).flatten = data ∧
    ∀ i, i < beat_count data sr bpm →
      (((slurm_slices data sr bpm).map List.length).getD i 0 =
        if i < data.length % beat_count data sr bpm
        then data.length / beat_count data sr bpm + 1
        else data.length / beat_count data sr bpm) := by
  refine ⟨length_array_split data hN, flatten_array_split data hN, fun i hi => ?_⟩
  rw [slurm_slices, array_split,
    map_length_takeChunks _ _ (le_of_eq (sum_splitSizes _ hN)),
    getD_splitSizes _ i hi]

/-- Witness for claim C3: five samples at BPM 30 and rate 1 give two beats
of 3 and 2 samples whose concatenation is the input. -/
theorem c3_witness :
    1 ≤ beat_count [1, 2, 3, 4, 5] 1 30 ∧
    ((slurm_slices [1, 2, 3, 4, 5] 1 30).length = beat_count [1, 2, 3, 4, 5] 1 30 ∧
      (slurm_slices [1, 2, 3, 4, 5] 1 30).flatten = [1, 2, 3, 4, 5] ∧
      ∀ i, i < beat_count [1, 2, 3, 4, 5] 1 30 →
        (((slurm_slices [1, 2, 3, 4, 5] 1 30).map List.length).getD i 0 =
          if i < ([1, 2, 3, 4, 5] : List ℚ).length % beat_count [1, 2, 3, 4, 5] 1 30
          then ([1, 2, 3, 4, 5] : List ℚ).length / beat_count [1, 2, 3, 4, 5] 1 30 + 1
          else ([1, 2, 3, 4, 5] : List ℚ).length / beat_count [1, 2, 3, 4, 5] 1 30)) :=
  ⟨by decide, c3_segment_partition [1, 2, 3, 4, 5] 1 30 (by decide)⟩

/-! Zero-preservation lemmas for claim C5. -/

theorem all_zero_vmuls {l : List ℚ} (h : all_zero l) (c : ℚ) : all_zero (vmuls l c) := by
  intro x hx
  rcases List.mem_map.1 hx with ⟨y, hy, rfl⟩
  rw [h y hy, zero_mul]

theorem all_zero_reverse {l : List ℚ} (h : all_zero l) : all_zero l.reverse :=
  fun x hx => h x (List.mem_reverse.1 hx)

theorem all_zero_replicate (n : ℕ) : all_zero (List.replicate n 0) :=
  fun x hx => (List.mem_replicate.1 hx).2

theorem all_zero_addList : ∀ a b : List ℚ, all_zero a → all_zero b → all_zero (addList a b) := by
  intro a
  induction a with
  | nil => intro b _ _ x hx; simp [addList] at hx
  | cons x xs ih =>
    intro b ha hb
    cases b with
    | nil => intro z hz; simp [addList] at hz
    | cons y ys =>
      intro z hz
      simp only [addList, List.zipWith_cons_cons, List.mem_cons] at hz
      rcases hz with rfl | hz
      · rw [ha x (List.mem_cons_self x xs), hb y (List.mem_cons_self y ys), add_zero]
      · exact ih ys (fun u hu => ha u (List.mem_cons_of_mem x hu))
          (fun u hu => hb u (List.mem_cons_of_mem y hu)) z hz

theorem all_zero_np_resize {l : List ℚ} (h : all_zero l) (n : ℕ) :
    all_zero (np_resize l n) := by
  intro x hx
  rw [np_resize] at hx
  split at hx
  · exact (List.mem_replicate.1 hx).2
  · rcases List.mem_flatten.1 (List.mem_of_mem_take hx) with ⟨l', hl', hxl'⟩
    rcases (List.mem_replicate.1 hl') with ⟨-, rfl⟩
    exact h x hxl'

theorem all_zero_get_fractional_slice {l : List ℚ} (h : all_zero l) (s t : ℚ) :
    all_zero (get_fractional_slice l s t) := fun x hx =>
  h x (List.mem_of_mem_take (List.mem_of_mem_drop hx))

theorem all_zero_resample_divider (R : Resamplers) (hzp : zero_preserving R)
    {d : List ℚ} (h : all_zero d) (sr v : ℚ) : all_zero (resample_divider R d sr v) := by
  rw [resample_divider]; split
  · exact h
  · exact hzp.1 d sr _ h

theorem all_zero_resample_multiplier (R : Resamplers) (hzp : zero_preserving R)
    {d : List ℚ} (h : all_zero d) (sr m : ℚ) : all_zero (resample_multiplier R d sr m) := by
  rw [resample_multiplier]; split
  · exact h
  · exact hzp.1 d sr _ h

theorem all_zero_resample_n_samples (R : Resamplers) (hzp : zero_preserving R)
    {d : List ℚ} (h : all_zero d) (n : ℕ) : all_zero (resample_n_samples R d n) :=
  hzp.2 d n h

theorem all_zero_slice_data_of (R : Resamplers) (hzp : zero_preserving R) (sr : ℚ)
    (ss : SliceSettings) (timing : ℚ → ℚ) (N i : ℕ) {seg : List ℚ} (h : all_zero seg) :
    all_zero (slice_data_of R sr ss timing N i seg) :=
  all_zero_resample_divider R hzp (all_zero_get_fractional_slice h _ _) _ _

theorem all_zero_mk_to_echo (es : EchoSettings) {sd : List ℚ} (h : all_zero sd) :
    all_zero (mk_to_echo es sd) := by
  rw [mk_to_echo]; split
  · exact all_zero_addList _ _ (all_zero_vmuls h _) (all_zero_vmuls (all_zero_reverse h) _)
  · exact h

theorem all_zero_echo_speed_morph (R : Resamplers) (hzp : zero_preserving R) (sr : ℚ)
    (es : EchoSettings) (n : ℕ) {echo : List ℚ} (h : all_zero echo) :
    all_zero (echo_speed_morph R sr es n echo) := by
  rw [echo_speed_morph]; split
  · exact all_zero_addList _ _ (all_zero_vmuls h _)
      (all_zero_vmuls (all_zero_np_resize (all_zero_resample_multiplier R hzp h _ _) _) _)
  · exact h

theorem all_zero_slurmStep (R : Resamplers) (hzp : zero_preserving R) (sr : ℚ)
    (ss : SliceSettings) (es : EchoSettings) (timing : ℚ → ℚ) (N i : ℕ)
    {seg echo : List ℚ} (hseg : all_zero seg) (hecho : all_zero echo) :
    all_zero (slurmStep R sr ss es timing N i seg echo).1 ∧
      all_zero (slurmStep R sr ss es timing N i seg echo).2 := by
  have hsd := all_zero_slice_data_of R hzp sr ss timing N i hseg
  have hecho1 := all_zero_resample_n_samples R hzp hecho
    (slice_data_of R sr ss timing N i seg).length
  have hcut1 : all_zero (if ss.reverse
      then (vmuls (slice_data_of R sr ss timing N i seg) ss.mix).reverse
      else vmuls (slice_data_of R sr ss timing N i seg) ss.mix) := by
    split
    · exact all_zero_reverse (all_zero_vmuls hsd _)
    · exact all_zero_vmuls hsd _
  have hecho4 : all_zero (addList
      (echo_speed_morph R sr es (slice_data_of R sr ss timing N i seg).length
        (vmuls (resample_n_samples R echo (slice_data_of R sr ss timing N i seg).length)
          es.multiplier))
      (vmuls (mk_to_echo es (slice_data_of R sr ss timing N i seg)) es.slice_mix)) :=
    all_zero_addList _ _
      (all_zero_echo_speed_morph R hzp sr es _ (all_zero_vmuls hecho1 _))
      (all_zero_vmuls (all_zero_mk_to_echo es hsd) _)
  constructor
  · exact all_zero_addList _ _ hcut1 (all_zero_vmuls hecho1 _)
  · show all_zero (if es.flipflop then _ else _)
    split
    · exact all_zero_reverse hecho4
    · exact hecho4

theorem all_zero_slurmLoop (R : Resamplers) (hzp : zero_preserving R) (sr : ℚ)
    (ss : SliceSettings) (es : EchoSettings) (timing : ℚ → ℚ) (N : ℕ) :
    ∀ (segs : List (List ℚ)) (i : ℕ) (echo : List ℚ),
      (∀ s ∈ segs, all_zero s) → all_zero echo →
      ∀ c ∈ (slurmLoop R sr ss es timing N segs i echo).1, all_zero c := by
  intro segs
  induction segs with
  | nil => intro i echo _ _ c hc; simp [slurmLoop] at hc
  | cons s rest ih =>
    intro i echo hsegs hecho c hc
    have hstep := all_zero_slurmStep R hzp sr ss es timing N i
      (hsegs s (List.mem_cons_self s rest)) hecho
    simp only [slurmLoop, List.mem_cons] at hc
    rcases hc with rfl | hc
    · exact hstep.1
    · exact ih (i + 1) _ (fun u hu => hsegs u (List.mem_cons_of_mem s hu)) hstep.2 c hc

theorem all_zero_of_mem_array_split {data : List ℚ} (h : all_zero data) {n : ℕ}
    {seg : List ℚ} (hseg : seg ∈ array_split data n) : all_zero seg := by
  intro x hx
  have hmem : x ∈ (array_split data n).flatten := List.mem_flatten.2 ⟨seg, hseg, hx⟩
  rw [array_split, flatten_takeChunks] at hmem
  exact h x (List.mem_of_mem_take hmem)

/-- Claim C5: an all-zero input buffer produces an all-zero output for
every choice of settings and timing function, provided the external
resampling backends map silence to silence (true of the real librosa and
scipy resamplers, which are linear). -/
theorem c5_silence_in_silence_out (R : Resamplers) (hzp : zero_preserving R)
    (data : List ℚ) (sr bpm : ℚ) (ss : SliceSettings) (es : EchoSettings)
    (timing : ℚ → ℚ) (hdata : all_zero data) :
    all_zero (slurm R data sr bpm ss es timing) := by
  intro y hy
  simp only [slurm] at hy
  rcases List.mem_flatten.1 hy with ⟨c, hc, hyc⟩
  exact all_zero_slurmLoop R hzp sr ss es timing _ (slurm_slices data sr bpm) 0 _
    (fun s hs => all_zero_of_mem_array_split hdata hs)
    (all_zero_replicate _) c hc y hyc

theorem extId_zero_preserving : zero_preserving extId := by
  constructor
  · exact fun d _ _ h => h
  · intro d n h x hx
    rcases List.mem_append.1 hx with hx | hx
    · exact h x (List.mem_of_mem_take hx)
    · exact (List.mem_replicate.1 hx).2

/-- Witness for claim C5: a four-sample silent buffer through nontrivial
settings (reverse, flips, morph) stays silent. -/
theorem c5_witness :
    all_zero (slurm extId [0, 0, 0, 0] 1 60 ⟨0, 1, 2, true⟩
      ⟨1, 1, 1, 2, 1/2, true, 1/3, true⟩ (fun t => t + 1)) :=
  c5_silence_in_silence_out extId extId_zero_preserving [0, 0, 0, 0] 1 60
    ⟨0, 1, 2, true⟩ ⟨1, 1, 1, 2, 1/2, true, 1/3, true⟩ (fun t => t + 1)
    (by intro x hx; simpa using hx)

/-- Claim C4: in every iteration of the per-segment loop (any index, any
segment, any incoming echo-buffer state), the echo buffer produced by the
resize step has exactly the length of that iteration's slice_data; this is
the documented length contract of scipy.signal.resample applied at
target_size = len(slice_data). -/
theorem c4_echo_resize_matches_slice_length (R : Resamplers) (hlen : scipy_length_ok R)
    (sr : ℚ) (ss : SliceSettings) (timing : ℚ → ℚ) (N i : ℕ) (seg : List ℚ)
    (echo_buf : List ℚ) :
    (resample_n_samples R echo_buf (slice_data_of R sr ss timing N i seg).length).length =
      (slice_data_of R sr ss timing N i seg).length :=
  hlen echo_buf (slice_data_of R sr ss timing N i seg).length

theorem extId_length_ok : scipy_length_ok extId := by
  intro d n
  simp only [extId, List.length_append, List.length_take, List.length_replicate]
  omega

/-- Witness for claim C4 at the truncate-or-pad backend on concrete data. -/
theorem c4_witness :
    (resample_n_samples extId [5, 6, 7]
        (slice_data_of extId 1 ⟨0, 1, 1, false⟩ (fun _ => 1) 2 0 [1, 2]).length).length =
      (slice_data_of extId 1 ⟨0, 1, 1, false⟩ (fun _ => 1) 2 0 [1, 2]).length :=
  c4_echo_resize_matches_slice_length extId extId_length_ok 1 ⟨0, 1, 1, false⟩
    (fun _ => 1) 2 0 [1, 2] [5, 6, 7]

/-! Evaluation lemmas for the end-to-end scenario (claim C6). -/

theorem gfs_zero_one (l : List ℚ) : get_fractional_slice l 0 1 = l := by
  simp only [get_fractional_slice]
  have h0 : pyInt ((l.length : ℚ) * 0) = 0 := by
    rw [mul_zero, pyInt_of_nonneg le_rfl, Int.floor_zero]
  have h1 : pyInt ((l.length : ℚ) * 1) = (l.length : ℤ) := by
    rw [mul_one, pyInt_of_nonneg (Nat.cast_nonneg _), Int.floor_natCast]
  rw [h0, h1, @pySlice_of_nonneg l 0 (l.length : ℤ) le_rfl (Int.natCast_nonneg _)]
  simp

theorem takeChunks_replicate (k : ℕ) (a : ℚ) :
    ∀ m : ℕ, takeChunks (List.replicate (m * k) a) (List.replicate m k) =
      List.replicate m (List.replicate k a) := by
  intro m
  induction m with
  | zero => rfl
  | succ m ih =>
    rw [List.replicate_succ, takeChunks]
    have hmul : (m + 1) * k = k + m * k := by ring
    rw [hmul, List.take_replicate, List.drop_replicate]
    have hmin : min k (k + m * k) = k := by omega
    have hsub : k + m * k - k = m * k := by omega
    rw [hmin, hsub, ih, List.replicate_succ]

theorem array_split_replicate (n k : ℕ) (hn : 1 ≤ n) (a : ℚ) :
    array_split (List.replicate (n * k) a) n = List.replicate n (List.replicate k a) := by
  have hmod : n * k % n = 0 := Nat.mul_mod_right n k
  have hdiv : n * k / n = k := Nat.mul_div_cancel_left k (by omega)
  rw [array_split, List.length_replicate, splitSizes, hmod, hdiv]
  simp only [List.replicate_zero, List.nil_append, Nat.sub_zero]
  exact takeChunks_replicate k a n

theorem map_mul_zero (l : List ℚ) : l.map (fun x => x * 0) = List.replicate l.length 0 := by
  simp [List.map_const']

theorem map_mul_one (l : List ℚ) : l.map (fun x => x * 1) = l := by
  simp

theorem c6_beat_count : beat_count (List.replicate 176400 (0 : ℚ)) 44100 120 = 8 := by
  rw [beat_count, List.length_replicate]
  decide

theorem c6_step (R : Resamplers) (hlen : scipy_length_ok R) (N i : ℕ) (echo : List ℚ) :
    slurmStep R 44100 ss6 es6 (fun _ => 1) N i (List.replicate 22050 0) echo =
      (List.replicate 22050 0, List.replicate 22050 0) := by
  have hsd : slice_data_of R 44100 ss6 (fun _ => 1) N i (List.replicate 22050 0) =
      List.replicate 22050 0 := by
    rw [slice_data_of]
    show resample_divider R (get_fractional_slice _ ss6.beat_offset ss6.beat_size) _ 1 = _
    rw [show ss6.beat_offset = 0 from rfl, show ss6.beat_size = 1 from rfl,
      gfs_zero_one, resample_divider, if_pos rfl]
  have h1 : (R.scipy_resample echo 22050).length = 22050 := hlen echo 22050
  simp only [slurmStep, hsd, resample_n_samples, List.length_replicate]
  simp only [show ss6.mix = 1 from rfl, show ss6.reverse = false from rfl,
    show es6.mix = 0 from rfl, show es6.multiplier = 0 from rfl,
    show es6.slice_mix = 0 from rfl, show es6.flipflop = false from rfl,
    Bool.false_eq_true, if_false]
  simp only [vmuls, map_mul_zero, map_mul_one, h1]
  simp only [echo_speed_morph, show es6.internal_resample_multiplier = 1 from rfl,
    ne_eq, not_true_eq_false, Bool.false_eq_true, if_false]
  simp only [mk_to_echo, show es6.internal_flip = false from rfl,
    Bool.false_eq_true, if_false, List.length_replicate]
  simp only [addList, List.zipWith_replicate, add_zero, min_self]

theorem c6_loop (R : Resamplers) (hlen : scipy_length_ok R) :
    ∀ (m N i : ℕ) (echo : List ℚ),
      (slurmLoop R 44100 ss6 es6 (fun _ => 1) N
        (List.replicate m (List.replicate 22050 0)) i echo).1 =
        List.replicate m (List.replicate 22050 0) := by
  intro m
  induction m with
  | zero => intro N i echo; rfl
  | succ m ih =>
    intro N i echo
    rw [List.replicate_succ]
    simp only [slurmLoop, c6_step R hlen, ih]

theorem flatten_replicate_replicate (k : ℕ) (a : ℚ) :
    ∀ m : ℕ, (List.replicate m (List.replicate k a)).flatten = List.replicate (m * k) a := by
  intro m
  induction m with
  | zero => simp
  | succ m ih =>
    rw [List.replicate_succ, List.flatten_cons, ih, ← List.replicate_add]
    congr 1
    ring

theorem c6_eval (R : Resamplers) (hlen : scipy_length_ok R) :
    slurm R (List.replicate 176400 0) 44100 120 ss6 es6 (fun _ => 1) =
      List.replicate 176400 0 := by
  have hsplit : slurm_slices (List.replicate 176400 (0 : ℚ)) 44100 120 =
      List.replicate 8 (List.replicate 22050 0) := by
    rw [slurm_slices, c6_beat_count, show (176400 : ℕ) = 8 * 22050 from rfl]
    exact array_split_replicate 8 22050 (by omega) 0
  simp only [slurm, hsplit]
  have hhead : (List.replicate 8 (List.replicate 22050 (0 : ℚ))).headD [] =
      List.replicate 22050 0 := rfl
  rw [hhead, show ss6.beat_offset = 0 from rfl, show ss6.beat_size = 1 from rfl,
    gfs_zero_one, List.length_replicate, List.length_replicate]
  rw [c6_loop R hlen 8 8 0 (List.replicate 22050 0),
    flatten_replicate_replicate 22050 0 8]

/-- Claim C6 counterexample: for the spec's end-to-end scenario (4 seconds
of silence at 44100 Hz, BPM 120, beat_size 1, mix 1, echo fully disabled,
constant timing 1) the number of beats is 8, not 4, and the output has
176400 samples, not 88200. -/
theorem c6_counterexample :
    beat_count (List.replicate 176400 (0 : ℚ)) 44100 120 = 8 ∧
      (slurm extId (List.replicate 176400 0) 44100 120 ss6 es6 (fun _ => 1)).length ≠ 88200 := by
  refine ⟨c6_beat_count, ?_⟩
  rw [c6_eval extId extId_length_ok, List.length_replicate]
  decide

/-- Claim C6 (amended): the scenario's buffer holds 4 x 44100 = 176400
samples and beat_samples = 22050, so N = 8 (not 4); the output has exactly
8 x 22050 = 176400 samples, all zero. -/
theorem c6_end_to_end (R : Resamplers) (hlen : scipy_length_ok R) :
    (slurm R (List.replicate 176400 0) 44100 120 ss6 es6 (fun _ => 1)).length = 176400 ∧
      all_zero (slurm R (List.replicate 176400 0) 44100 120 ss6 es6 (fun _ => 1)) := by
  rw [c6_eval R hlen]
  exact ⟨by rw [List.length_replicate], all_zero_replicate _⟩

/-- Witness for claim C6's amended theorem at the truncate-or-pad backend. -/
theorem c6_witness :
    (slurm extId (List.replicate 176400 0) 44100 120 ss6 es6 (fun _ => 1)).length = 176400 ∧
      all_zero (slurm extId (List.replicate 176400 0) 44100 120 ss6 es6 (fun _ => 1)) :=
  c6_end_to_end extId extId_length_ok

/-! Claims C1 and C2: the speed-morph and the feedback input. -/

/-- Claim C1 counterexample: the code's speed-morph brings the
rate-resampled echo back to length n with np.resize (cyclic repetition or
truncation), not with the fixed-length reinterpolating resampler the spec
describes; a backend satisfying scipy's length contract separates the two
at internal_resample_multiplier 2, drywet 1, echo buffer of one sample. -/
theorem c1_counterexample :
    scipy_length_ok scipyZero ∧
      echo_speed_morph scipyZero 1 ⟨0, 0, 0, 2, 1, false, 0, false⟩ 1 [1] ≠
        echo_speed_morph_spec scipyZero 1 ⟨0, 0, 0, 2, 1, false, 0, false⟩ 1 [1] := by
  refine ⟨fun d n => ?_, by decide⟩
  simp [scipyZero]

/-- Claim C1 (amended): in every iteration with
internal_resample_multiplier not 1, the echo buffer is rate-resampled by
that multiplier, brought back to exactly len(slice_data) samples by
np.resize (truncation or cyclic repetition, not reinterpolation), and the
echo buffer becomes echo_buf times (1 - internal_resample_drywet) plus the
morphed buffer times internal_resample_drywet. -/
theorem c1_speed_morph_uses_np_resize (R : Resamplers) (sr : ℚ) (es : EchoSettings)
    (n : ℕ) (echo : List ℚ) (h : es.internal_resample_multiplier ≠ 1) :
    echo_speed_morph R sr es n echo =
      addList (vmuls echo (1 - es.internal_resample_drywet))
        (vmuls (np_resize (resample_multiplier R echo sr es.internal_resample_multiplier) n)
          es.internal_resample_drywet) := by
  rw [echo_speed_morph, if_pos h]

/-- Witness for claim C1's amended theorem at multiplier 2, drywet 1/2. -/
theorem c1_witness :
    (⟨0, 0, 0, 2, 1/2, false, 0, false⟩ : EchoSettings).internal_resample_multiplier ≠ 1 ∧
      echo_speed_morph extId 1 ⟨0, 0, 0, 2, 1/2, false, 0, false⟩ 2 [1, 2] =
        addList (vmuls [1, 2] (1 - 1/2))
          (vmuls (np_resize (resample_multiplier extId [1, 2] 1 2) 2) (1/2)) :=
  ⟨by decide, c1_speed_morph_uses_np_resize extId 1 ⟨0, 0, 0, 2, 1/2, false, 0, false⟩
    2 [1, 2] (by decide)⟩

/-- Claim C2 counterexample: at mix 2 (and no reverse, no flip), the echo
buffer after one iteration differs between the code's step (feedback from
the raw resampled window) and the spec's step (feedback from the mixed
slice): the code feeds back the unscaled slice. -/
theorem c2_counterexample :
    slurmStep extId 1 ⟨0, 1, 2, false⟩ ⟨0, 0, 1, 1, 0, false, 0, false⟩
        (fun _ => 1) 1 0 [1] [0] ≠
      slurmStep_claimed extId 1 ⟨0, 1, 2, false⟩ ⟨0, 0, 1, 1, 0, false, 0, false⟩
        (fun _ => 1) 1 0 [1] [0] := by
  decide

/-- Claim C2 (amended): the feedback input to the echo buffer is built
from the raw rate-resampled window, before multiplication by
SliceSettings.mix and before the optional reversal; consequently the echo
state produced by an iteration is unchanged if mix is replaced by 1 and
reverse by false (mix and reverse affect only the output slice). -/
theorem c2_feedback_ignores_mix_and_reverse (R : Resamplers) (sr : ℚ)
    (ss : SliceSettings) (es : EchoSettings) (timing : ℚ → ℚ) (N i : ℕ)
    (seg echo : List ℚ) :
    (slurmStep R sr ss es timing N i seg echo).2 =
      (slurmStep R sr ⟨ss.beat_offset, ss.beat_size, 1, false⟩ es timing N i seg echo).2 :=
  rfl

/-! Energy lemmas for claim C9. -/

theorem energy_nonneg (l : List ℚ) : 0 ≤ energy l := by
  induction l with
  | nil => simp [energy]
  | cons x xs ih =>
    simp only [energy, List.map_cons, List.sum_cons] at ih ⊢
    exact add_nonneg (mul_self_nonneg x) ih

theorem energy_reverse (l : List ℚ) : energy l.reverse = energy l := by
  rw [energy, List.map_reverse, List.sum_reverse, energy]

theorem energy_vmuls (l : List ℚ) (c : ℚ) : energy (vmuls l c) = energy l * (c * c) := by
  induction l with
  | nil => simp [energy, vmuls]
  | cons x xs ih =>
    simp only [energy, vmuls, List.map_cons, List.sum_cons] at ih ⊢
    rw [ih]; ring

theorem energy_append (a b : List ℚ) : energy (a ++ b) = energy a + energy b := by
  simp [energy, List.map_append, List.sum_append]

theorem energy_take_le (l : List ℚ) (n : ℕ) : energy (l.take n) ≤ energy l := by
  conv_rhs => rw [← List.take_append_drop n l]
  rw [energy_append]
  exact le_add_of_nonneg_right (energy_nonneg _)

theorem energy_replicate_zero (k : ℕ) : energy (List.replicate k (0 : ℚ)) = 0 := by
  simp [energy, List.map_replicate, List.sum_replicate]

theorem extId_energy_nonincreasing (d : List ℚ) (n : ℕ) :
    energy (extId.scipy_resample d n) ≤ energy d := by
  show energy (d.take n ++ List.replicate (n - d.length) 0) ≤ energy d
  rw [energy_append, energy_replicate_zero, add_zero]
  exact energy_take_le d n

theorem addList_replicate_zero (a : List ℚ) : addList a (List.replicate a.length 0) = a := by
  induction a with
  | nil => rfl
  | cons x xs ih =>
    show addList (x :: xs) (List.replicate (xs.length + 1) 0) = x :: xs
    rw [List.replicate_succ]
    simp only [addList, List.zipWith_cons_cons, add_zero]
    exact congrArg (List.cons x) ih

theorem addList_vmuls_zero (a b : List ℚ) (h : a.length = b.length) :
    addList a (vmuls b 0) = a := by
  rw [vmuls, map_mul_zero, ← h, addList_replicate_zero]

theorem mk_to_echo_length (es : EchoSettings) (sd : List ℚ) :
    (mk_to_echo es sd).length = sd.length := by
  rw [mk_to_echo]; split
  · simp [addList, vmuls, List.length_zipWith]
  · rfl

theorem slurmStep_energy_nonincreasing (R : Resamplers) (hlen : scipy_length_ok R)
    (hsci : ∀ d n, energy (R.scipy_resample d n) ≤ energy d)
    (sr : ℚ) (ss : SliceSettings) (es : EchoSettings) (timing : ℚ → ℚ) (N i : ℕ)
    (seg echo : List ℚ)
    (hm0 : 0 < es.multiplier) (hm1 : es.multiplier < 1) (hsm : es.slice_mix = 0)
    (hirm : es.internal_resample_multiplier = 1) :
    energy (slurmStep R sr ss es timing N i seg echo).2 ≤ energy echo := by
  have hmorph : echo_speed_morph R sr es (slice_data_of R sr ss timing N i seg).length
      (vmuls (resample_n_samples R echo (slice_data_of R sr ss timing N i seg).length)
        es.multiplier) =
      vmuls (resample_n_samples R echo (slice_data_of R sr ss timing N i seg).length)
        es.multiplier := by
    rw [echo_speed_morph, if_neg]
    simp [hirm]
  have hlen3 : (vmuls (resample_n_samples R echo
        (slice_data_of R sr ss timing N i seg).length) es.multiplier).length =
      (mk_to_echo es (slice_data_of R sr ss timing N i seg)).length := by
    rw [vmuls, List.length_map, mk_to_echo_length, resample_n_samples,
      hlen echo (slice_data_of R sr ss timing N i seg).length]
  have heq : (slurmStep R sr ss es timing N i seg echo).2 =
      if es.flipflop
      then (vmuls (resample_n_samples R echo
        (slice_data_of R sr ss timing N i seg).length) es.multiplier).reverse
      else vmuls (resample_n_samples R echo
        (slice_data_of R sr ss timing N i seg).length) es.multiplier := by
    simp only [slurmStep, hmorph, hsm, addList_vmuls_zero _ _ hlen3]
  have hbase : energy (vmuls (resample_n_samples R echo
      (slice_data_of R sr ss timing N i seg).length) es.multiplier) ≤ energy echo := by
    rw [energy_vmuls]
    have h2 : es.multiplier * es.multiplier ≤ 1 := by nlinarith
    exact le_trans (mul_le_of_le_one_right (energy_nonneg _) h2)
      (hsci echo (slice_data_of R sr ss timing N i seg).length)
  rw [heq]
  split
  · rw [energy_reverse]; exact hbase
  · exact hbase

theorem echoTrace_adjacent (R : Resamplers) (sr : ℚ) (ss : SliceSettings)
    (es : EchoSettings) (timing : ℚ → ℚ) (N : ℕ)
    (hstep : ∀ (i : ℕ) (seg echo : List ℚ),
      energy (slurmStep R sr ss es timing N i seg echo).2 ≤ energy echo) :
    ∀ (segs : List (List ℚ)) (i : ℕ) (echo : List ℚ) (k : ℕ),
      k + 1 < (echoTrace R sr ss es timing N segs i echo).length →
      energy ((echoTrace R sr ss es timing N segs i echo).getD (k + 1) []) ≤
        energy ((echoTrace R sr ss es timing N segs i echo).getD k []) := by
  intro segs
  induction segs with
  | nil => intro i echo k h; simp [echoTrace] at h
  | cons s rest ih =>
    intro i echo k h
    cases rest with
    | nil => simp [echoTrace] at h
    | cons s2 r2 =>
      cases k with
      | zero =>
        simp only [echoTrace, List.getD_cons_succ, List.getD_cons_zero]
        exact hstep _ _ _
      | succ k =>
        have h' : k + 1 < (echoTrace R sr ss es timing N (s2 :: r2) (i + 1)
            (slurmStep R sr ss es timing N i s echo).2).length := by
          simpa [echoTrace] using h
        simpa only [echoTrace, List.getD_cons_succ] using
          ih (i + 1) (slurmStep R sr ss es timing N i s echo).2 k h'

/-- Claim C9 counterexample: a backend satisfying scipy's length contract
can add energy in the per-iteration echo resize, so with multiplier 1/2
(inside (0,1)) and slice_mix 0 the echo energy strictly grows from
iteration 1 to iteration 2 on a two-beat silent input. -/
theorem c9_counterexample :
    scipy_length_ok R_pump ∧ (0 : ℚ) < 1/2 ∧ (1/2 : ℚ) < 1 ∧
      ¬ (energy ((slurm_echo_trace R_pump [0, 0] 1 60 ⟨0, 1, 1, false⟩
            ⟨0, 1/2, 0, 1, 0, false, 0, false⟩ (fun _ => 1)).getD 1 []) ≤
          energy ((slurm_echo_trace R_pump [0, 0] 1 60 ⟨0, 1, 1, false⟩
            ⟨0, 1/2, 0, 1, 0, false, 0, false⟩ (fun _ => 1)).getD 0 [])) := by
  refine ⟨fun d n => ?_, by decide, by decide, by decide⟩
  simp [R_pump]

/-- Claim C9 (amended): with multiplier strictly between 0 and 1,
slice_mix 0, internal_resample_multiplier 1, and a fixed-length resampler
that never increases energy, the echo buffer's energy is non-increasing
from each iteration of the per-segment loop to the next. -/
theorem c9_decay_monotone (R : Resamplers) (hlen : scipy_length_ok R)
    (hsci : ∀ d n, energy (R.scipy_resample d n) ≤ energy d)
    (data : List ℚ) (sr bpm : ℚ) (ss : SliceSettings) (es : EchoSettings)
    (timing : ℚ → ℚ)
    (hm0 : 0 < es.multiplier) (hm1 : es.multiplier < 1) (hsm : es.slice_mix = 0)
    (hirm : es.internal_resample_multiplier = 1) (k : ℕ)
    (hk : k + 1 < (slurm_echo_trace R data sr bpm ss es timing).length) :
    energy ((slurm_echo_trace R data sr bpm ss es timing).getD (k + 1) []) ≤
      energy ((slurm_echo_trace R data sr bpm ss es timing).getD k []) := by
  simp only [slurm_echo_trace] at hk ⊢
  exact echoTrace_adjacent R sr ss es timing _
    (fun i seg echo => slurmStep_energy_nonincreasing R hlen hsci sr ss es timing _ i
      seg echo hm0 hm1 hsm hirm)
    _ 0 _ k hk

/-- Witness for claim C9's amended theorem: the truncate-or-pad backend
never adds energy, and on a two-beat input the echo energy does not grow
from iteration 1 to iteration 2. -/
theorem c9_witness :
    (0 : ℚ) < 1/2 ∧ (1/2 : ℚ) < 1 ∧
      0 + 1 < (slurm_echo_trace extId [1, 2] 1 60 ⟨0, 1, 1, false⟩
        ⟨0, 1/2, 0, 1, 0, false, 0, false⟩ (fun _ => 1)).length ∧
      energy ((slurm_echo_trace extId [1, 2] 1 60 ⟨0, 1, 1, false⟩
          ⟨0, 1/2, 0, 1, 0, false, 0, false⟩ (fun _ => 1)).getD (0 + 1) []) ≤
        energy ((slurm_echo_trace extId [1, 2] 1 60 ⟨0, 1, 1, false⟩
          ⟨0, 1/2, 0, 1, 0, false, 0, false⟩ (fun _ => 1)).getD 0 []) :=
  ⟨by decide, by decide, by decide,
    c9_decay_monotone extId extId_length_ok extId_energy_nonincreasing [1, 2] 1 60
      ⟨0, 1, 1, false⟩ ⟨0, 1/2, 0, 1, 0, false, 0, false⟩ (fun _ => 1)
      (by decide) (by decide) (by decide) (by decide) 0 (by decide)⟩
